import Mathlib

/-!
Shallow embedding of the income allocation and distribution engine of the
envelope-budgeting dashboard (source: `src/app/page.tsx`, functions
`handleTransactionsAdded` and `validateIncomeAllocation`, plus the paycheck
entry component `src/components/GetPaid.tsx`, function `handleSubmit`).

Currency amounts are modelled as exact rationals (`ℚ`).  Optional TypeScript
fields become `Option`; the JavaScript truthiness tests of the source are
translated explicitly (`!transaction.envelopeId` is the absence test on an
optional string that every producer in the repository normalises away from
the empty string; `env.incomeAllocation && env.incomeAllocationType` is false
when the numeric value is `0` or either field is missing).  The ambient
identifier generator (`Date.now()` / `Math.random()`) is abstracted as an
explicit `idGen` parameter of the income processor; the concrete identifier
shapes of `GetPaid.tsx` are modelled separately for the uniqueness analysis.
-/

namespace Budget

/-- Allocation kind field `incomeAllocationType`, a source string union of percentage and fixed. -/
inductive AllocKind where
  | percentage
  | fixed
deriving DecidableEq

/-- Envelope record, source `interface Envelope` in `page.tsx`. -/
structure Envelope where
  id : String
  name : String
  allocated : ℚ
  spent : ℚ
  accountId : String
  incomeAllocation : Option ℚ := none
  incomeAllocationType : Option AllocKind := none
deriving DecidableEq

/-- Transaction record, source `interface Transaction` in `page.tsx`.
The date is opaque to the allocation engine and modelled as a number. -/
structure Transaction where
  id : String
  envelopeId : Option String := none
  amount : ℚ
  description : String
  date : Nat
  accountId : String
deriving DecidableEq

/-- Source line 127: `env.incomeAllocation && env.incomeAllocationType`.
JavaScript truthiness: the numeric value `0` is falsy, a missing field is
falsy, and both allocation-kind strings are truthy. -/
def hasCompleteRule (env : Envelope) : Bool :=
  match env.incomeAllocation, env.incomeAllocationType with
  | some v, some _ => decide (v ≠ 0)
  | _, _ => false

/-- Result record of `validateIncomeAllocation` (isValid plus optional message). -/
structure ValidationResult where
  isValid : Bool
  message : Option String := none
deriving DecidableEq

/-- Running total of `incomeAllocation` over envelopes of fixed kind,
accumulated by the `forEach` loop of `validateIncomeAllocation`
(lines 207-215). -/
def fixedTotal (envelopes : List Envelope) : ℚ :=
  envelopes.foldl
    (fun sum env =>
      if env.incomeAllocationType = some AllocKind.fixed then
        sum + env.incomeAllocation.getD 0
      else sum) 0

/-- Running total of `incomeAllocation` over envelopes of percentage kind
(lines 207-215). -/
def percentageTotal (envelopes : List Envelope) : ℚ :=
  envelopes.foldl
    (fun sum env =>
      if env.incomeAllocationType = some AllocKind.percentage then
        sum + env.incomeAllocation.getD 0
      else sum) 0

/-- Flag `hasFixed` set by the loop of `validateIncomeAllocation`. -/
def hasFixed (envelopes : List Envelope) : Bool :=
  envelopes.any (fun env => env.incomeAllocationType = some AllocKind.fixed)

/-- Flag `hasPercentage` set by the loop of `validateIncomeAllocation`. -/
def hasPercentage (envelopes : List Envelope) : Bool :=
  envelopes.any (fun env => env.incomeAllocationType = some AllocKind.percentage)

/-- Validator `validateIncomeAllocation`, source `page.tsx` lines 201-233. -/
def validateIncomeAllocation (envelopes : List Envelope) (totalAmount : ℚ) :
    ValidationResult :=
  if hasFixed envelopes ∧ hasPercentage envelopes then
    { isValid := false
      message := some "Conflicting allocation types (fixed and percentage) detected." }
  else if hasFixed envelopes ∧ fixedTotal envelopes ≠ totalAmount then
    { isValid := false
      message := some "Fixed allocations do not sum up to the total amount." }
  else if hasPercentage envelopes ∧
      (percentageTotal envelopes < 0 ∨ 100 < percentageTotal envelopes) then
    { isValid := false
      message := some "Percentage allocations must be between 0 and 100." }
  else
    { isValid := true, message := none }

/-- The allocation transaction pushed by `handleTransactionsAdded`
(lines 141-148, 163-170, 182-189); the generated identifier string is
abstracted as `idGen` applied to the envelope identifier. -/
def mkAllocationTx (idGen : String → String) (t : Transaction) (env : Envelope)
    (allocatedAmount : ℚ) : Transaction :=
  { id := idGen env.id
    envelopeId := some env.id
    amount := allocatedAmount
    description := "Income allocation - " ++ env.name
    date := t.date
    accountId := t.accountId }

/-- Reduction `accountEnvelopes.reduce((sum, env) => sum + env.allocated, 0)`
(lines 135, 176). -/
def totalAllocatedOf (accountEnvelopes : List Envelope) : ℚ :=
  accountEnvelopes.foldl (fun sum env => sum + env.allocated) 0

/-- Proportional fallback allocation loop of `handleTransactionsAdded`
(lines 135-151 and 176-192): guarded by `accountEnvelopes.length > 0 &&
totalAllocated > 0`; each envelope receives
`transaction.amount * (envelope.allocated / totalAllocated)` and a
transaction is pushed only when that amount is `> 0`. -/
def proportionalTxs (idGen : String → String) (t : Transaction)
    (accountEnvelopes : List Envelope) : List Transaction :=
  let totalAllocated := totalAllocatedOf accountEnvelopes
  if 0 < accountEnvelopes.length ∧ 0 < totalAllocated then
    accountEnvelopes.filterMap (fun env =>
      let proportion := env.allocated / totalAllocated
      let allocatedAmount := t.amount * proportion
      if 0 < allocatedAmount then some (mkAllocationTx idGen t env allocatedAmount)
      else none)
  else []

/-- Per-envelope amount of the custom allocation branch (lines 155-160):
percentage kind gives `transaction.amount * (incomeAllocation / 100)`,
fixed kind gives `min(incomeAllocation, transaction.amount)`. -/
def customRuleAmount (totalAmount : ℚ) (env : Envelope) : ℚ :=
  match env.incomeAllocationType with
  | some AllocKind.percentage => totalAmount * (env.incomeAllocation.getD 0 / 100)
  | some AllocKind.fixed => min (env.incomeAllocation.getD 0) totalAmount
  | none => 0

/-- Custom allocation loop of `handleTransactionsAdded` (lines 152-173):
a transaction is pushed only when the computed amount is `> 0`. -/
def customTxs (idGen : String → String) (t : Transaction)
    (envelopesWithAllocation : List Envelope) : List Transaction :=
  envelopesWithAllocation.filterMap (fun env =>
    let allocatedAmount := customRuleAmount t.amount env
    if 0 < allocatedAmount then some (mkAllocationTx idGen t env allocatedAmount)
    else none)

/-- Filter `envelopes.filter(env => env.accountId === transaction.accountId)`
(line 126). -/
def candidateEnvelopes (envelopes : List Envelope) (t : Transaction) :
    List Envelope :=
  envelopes.filter (fun env => env.accountId = t.accountId)

/-- Classification guard of line 124:
`transaction.amount > 0 && !transaction.envelopeId`. -/
def isUnassignedIncome (t : Transaction) : Bool :=
  decide (0 < t.amount) && decide (t.envelopeId = none)

/-- The income-processing body of `handleTransactionsAdded` for one incoming
transaction (lines 123-195): the sequence of allocation transactions pushed
for `t`. -/
def processIncome (idGen : String → String) (envelopes : List Envelope)
    (t : Transaction) : List Transaction :=
  if isUnassignedIncome t then
    let accountEnvelopes := candidateEnvelopes envelopes t
    let envelopesWithAllocation := accountEnvelopes.filter hasCompleteRule
    if 0 < envelopesWithAllocation.length then
      if (validateIncomeAllocation envelopesWithAllocation t.amount).isValid then
        customTxs idGen t envelopesWithAllocation
      else
        proportionalTxs idGen t accountEnvelopes
    else
      proportionalTxs idGen t accountEnvelopes
  else []

/-- Function `handleTransactionsAdded` end to end (lines 119-199): the new ledger is
the previous transactions followed by the incoming transactions followed by
all allocation transactions, appended in one update. -/
def handleTransactionsAdded (idGen : String → String) (envelopes : List Envelope)
    (prevTransactions newTransactions : List Transaction) : List Transaction :=
  prevTransactions ++ newTransactions ++
    (newTransactions.map (processIncome idGen envelopes)).flatten

/-- Identifier of the main paycheck transaction in `GetPaid.tsx` line 110:
`paycheck-${Date.now()}` (no random component). -/
def paycheckTxId (nowMs : Nat) : String :=
  "paycheck-" ++ toString nowMs

/-- Identifier of an allocation transaction in `GetPaid.tsx` line 121:
`allocation-${envelopeId}-${Date.now()}` (no random component). -/
def getPaidAllocationTxId (envelopeId : String) (nowMs : Nat) : String :=
  "allocation-" ++ envelopeId ++ "-" ++ toString nowMs

/-- The identifiers generated by one `handleSubmit` invocation of
`GetPaid.tsx` (lines 106-129) when every call to `Date.now()` during the
invocation returns the same instant `nowMs`: the paycheck identifier followed
by one allocation identifier per distribution entry with positive amount. -/
def getPaidSubmitIds (distribution : List (String × ℚ)) (nowMs : Nat) :
    List String :=
  paycheckTxId nowMs ::
    distribution.filterMap (fun entry =>
      if 0 < entry.2 then some (getPaidAllocationTxId entry.1 nowMs) else none)

/-- Helper to build the concrete envelopes used by the witnesses below. -/
def mkEnvW (eid ename : String) (alloc : ℚ) (rule : Option ℚ)
    (kind : Option AllocKind) : Envelope :=
  { id := eid, name := ename, allocated := alloc, spent := 0
    accountId := "checking-1", incomeAllocation := rule
    incomeAllocationType := kind }

/-- Witness envelope: fixed rule of 60. -/
def eFixed60 : Envelope := mkEnvW "e1" "Rent" 100 (some 60) (some AllocKind.fixed)

/-- Witness envelope: fixed rule of 40. -/
def eFixed40 : Envelope := mkEnvW "e2" "Food" 50 (some 40) (some AllocKind.fixed)

/-- Witness envelope: percentage rule of 70. -/
def ePct70 : Envelope := mkEnvW "e3" "Savings" 200 (some 70) (some AllocKind.percentage)

/-- Witness envelope: percentage rule of 40. -/
def ePct40 : Envelope := mkEnvW "e4" "Fun" 80 (some 40) (some AllocKind.percentage)

/-- Witness envelope: percentage rule of 50. -/
def ePct50 : Envelope := mkEnvW "e5" "Bills" 0 (some 50) (some AllocKind.percentage)

/-- Witness envelope: percentage rule of 30. -/
def ePct30 : Envelope := mkEnvW "e6" "Gas" 0 (some 30) (some AllocKind.percentage)

/-- Witness envelope: no rule, allocated 500. -/
def ePlain500 : Envelope := mkEnvW "e7" "Housing" 500 none none

/-- Witness envelope: no rule, allocated 300. -/
def ePlain300 : Envelope := mkEnvW "e8" "Grocery" 300 none none

/-- Witness envelope: rule value 0 with a kind present. -/
def eZeroRule : Envelope := mkEnvW "e9" "Misc" 25 (some 0) (some AllocKind.percentage)

/-- Witness envelope: rule value present but kind missing. -/
def eNoKind : Envelope := mkEnvW "e10" "Travel" 40 (some 15) none

/-- Witness identifier generator. -/
def idGenW : String → String := fun s => "allocation-" ++ s ++ "-w"

/-- Witness income transaction of amount 1500. -/
def tIncome1500 : Transaction :=
  { id := "t1", envelopeId := none, amount := 1500, description := "Paycheck"
    date := 0, accountId := "checking-1" }

/-- Witness income transaction of amount 100. -/
def tIncome100 : Transaction :=
  { id := "t2", envelopeId := none, amount := 100, description := "Paycheck"
    date := 0, accountId := "checking-1" }

/-- Witness expense transaction of amount -50. -/
def tExpense50 : Transaction :=
  { id := "t3", envelopeId := none, amount := -50, description := "Coffee"
    date := 0, accountId := "checking-1" }

/-- Witness transaction whose envelopeId is already set. -/
def tAssigned : Transaction :=
  { id := "t4", envelopeId := some "e7", amount := 100, description := "Refund"
    date := 0, accountId := "checking-1" }

/-! ## Helper lemmas -/

/-- The kind-guarded accumulation loop of the validator computes the plain sum
of the rule values when every envelope in the list has the given kind. -/
theorem foldl_cond_add (k : AllocKind) (l : List Envelope) :
    ∀ c : ℚ, (∀ e ∈ l, e.incomeAllocationType = some k) →
      List.foldl
        (fun sum env =>
          if env.incomeAllocationType = some k then sum + env.incomeAllocation.getD 0
          else sum) c l
      = c + (l.map (fun e => e.incomeAllocation.getD 0)).sum := by
  induction l with
  | nil => intro c _; simp
  | cons e l ih =>
    intro c h
    have he : e.incomeAllocationType = some k := h e (by simp)
    rw [List.foldl_cons, if_pos he, ih _ (fun x hx => h x (by simp [hx]))]
    simp [add_assoc]

/-- The classification guard holds for an unassigned income transaction. -/
theorem isUnassignedIncome_true {t : Transaction} (h1 : 0 < t.amount)
    (h2 : t.envelopeId = none) : isUnassignedIncome t = true := by
  simp [isUnassignedIncome, h1, h2]

/-- Branch lemma: with no rule-bearing candidate envelope, `processIncome`
runs the proportional loop over all candidate envelopes. -/
theorem processIncome_no_rules (idGen : String → String) (envelopes : List Envelope)
    (t : Transaction) (h1 : 0 < t.amount) (h2 : t.envelopeId = none)
    (h3 : (candidateEnvelopes envelopes t).filter hasCompleteRule = []) :
    processIncome idGen envelopes t
      = proportionalTxs idGen t (candidateEnvelopes envelopes t) := by
  simp [processIncome, isUnassignedIncome_true h1 h2, h3]

/-- Branch lemma: with rule-bearing candidate envelopes whose rules fail
validation, `processIncome` runs the proportional loop over all candidate
envelopes. -/
theorem processIncome_invalid_rules (idGen : String → String)
    (envelopes : List Envelope) (t : Transaction)
    (h1 : 0 < t.amount) (h2 : t.envelopeId = none)
    (h3 : (candidateEnvelopes envelopes t).filter hasCompleteRule ≠ [])
    (h4 : (validateIncomeAllocation
      ((candidateEnvelopes envelopes t).filter hasCompleteRule) t.amount).isValid = false) :
    processIncome idGen envelopes t
      = proportionalTxs idGen t (candidateEnvelopes envelopes t) := by
  have hlen : 0 < ((candidateEnvelopes envelopes t).filter hasCompleteRule).length :=
    List.length_pos.mpr h3
  simp [processIncome, isUnassignedIncome_true h1 h2, hlen, h4]

/-- Branch lemma: with rule-bearing candidate envelopes whose rules pass
validation, `processIncome` runs the custom loop over the rule-bearing
envelopes. -/
theorem processIncome_valid_rules (idGen : String → String)
    (envelopes : List Envelope) (t : Transaction)
    (h1 : 0 < t.amount) (h2 : t.envelopeId = none)
    (h3 : (candidateEnvelopes envelopes t).filter hasCompleteRule ≠ [])
    (h4 : (validateIncomeAllocation
      ((candidateEnvelopes envelopes t).filter hasCompleteRule) t.amount).isValid = true) :
    processIncome idGen envelopes t
      = customTxs idGen t ((candidateEnvelopes envelopes t).filter hasCompleteRule) := by
  have hlen : 0 < ((candidateEnvelopes envelopes t).filter hasCompleteRule).length :=
    List.length_pos.mpr h3
  simp [processIncome, isUnassignedIncome_true h1 h2, hlen, h4]

/-- A degenerate rule (value 0, value missing, or kind missing) fails the
truthiness test of line 127. -/
theorem hasCompleteRule_eq_false_of_degenerate {env : Envelope}
    (h : env.incomeAllocation = some 0 ∨ env.incomeAllocation = none ∨
      env.incomeAllocationType = none) : hasCompleteRule env = false := by
  rcases hval : env.incomeAllocation with _ | v <;>
    rcases hkind : env.incomeAllocationType with _ | k <;>
      simp_all [hasCompleteRule]

/-- The running total of `allocated` computed by the `reduce` call equals the
sum of the allocated amounts. -/
theorem totalAllocatedOf_eq_sum (l : List Envelope) :
    totalAllocatedOf l = (l.map Envelope.allocated).sum := by
  have aux : ∀ (l : List Envelope) (c : ℚ),
      List.foldl (fun sum env => sum + env.allocated) c l
        = c + (l.map Envelope.allocated).sum := by
    intro l
    induction l with
    | nil => intro c; simp
    | cons e l ih => intro c; simp [List.foldl_cons, ih, add_assoc]
  simpa [totalAllocatedOf] using aux l 0

/-- The amount field of a generated allocation transaction. -/
theorem mkAllocationTx_amount (idGen : String → String) (t : Transaction)
    (env : Envelope) (a : ℚ) : (mkAllocationTx idGen t env a).amount = a := rfl

/-- Summing the amounts of the transactions kept by the positive-amount
filter equals summing the raw per-envelope amounts, provided no raw amount is
negative. -/
theorem sum_amounts_filterMap_pos (idGen : String → String) (t : Transaction)
    (g : Envelope → ℚ) (l : List Envelope) (hg : ∀ e ∈ l, 0 ≤ g e) :
    ((l.filterMap (fun env =>
        if 0 < g env then some (mkAllocationTx idGen t env (g env)) else none)).map
      Transaction.amount).sum = (l.map g).sum := by
  revert hg
  induction l with
  | nil => intro _; simp
  | cons e l ih =>
    intro hg
    have he : 0 ≤ g e := hg e (by simp)
    have ihl := ih (fun x hx => hg x (by simp [hx]))
    by_cases hpos : 0 < g e
    · simp [List.filterMap_cons, hpos, ihl, mkAllocationTx_amount]
    · have h0 : g e = 0 := le_antisymm (not_lt.mp hpos) he
      simp [List.filterMap_cons, hpos, ihl, h0]

/-- Factoring the income amount out of the proportional per-envelope sums. -/
theorem sum_map_proportional (t : Transaction) (S : ℚ) (l : List Envelope) :
    (l.map (fun env => t.amount * (env.allocated / S))).sum
      = t.amount * ((l.map Envelope.allocated).sum / S) := by
  induction l with
  | nil => simp
  | cons e l ih =>
    simp only [List.map_cons, List.sum_cons, ih]
    ring

/-! ## Claims about the Allocation Validator -/

/-- C4: for every rule set containing at least one fixed rule and at least
one percentage rule, the validator returns invalid with the
conflicting-allocation-types reason, regardless of the rule values. -/
theorem validator_conflicting_kinds_invalid (envelopes : List Envelope)
    (totalAmount : ℚ)
    (hf : ∃ e ∈ envelopes, e.incomeAllocationType = some AllocKind.fixed)
    (hp : ∃ e ∈ envelopes, e.incomeAllocationType = some AllocKind.percentage) :
    validateIncomeAllocation envelopes totalAmount =
      { isValid := false
        message := some "Conflicting allocation types (fixed and percentage) detected." } := by
  have h1 : hasFixed envelopes = true := by
    simpa [hasFixed, List.any_eq_true] using hf
  have h2 : hasPercentage envelopes = true := by
    simpa [hasPercentage, List.any_eq_true] using hp
  simp [validateIncomeAllocation, h1, h2]

/-- C4 witness: a fixed rule of 60 together with a percentage rule of 40 is
rejected as conflicting against a total of 100. -/
theorem validator_conflicting_kinds_invalid_witness :
    validateIncomeAllocation [eFixed60, ePct40] 100 =
      { isValid := false
        message := some "Conflicting allocation types (fixed and percentage) detected." } :=
  validator_conflicting_kinds_invalid [eFixed60, ePct40] 100
    ⟨eFixed60, by simp, rfl⟩ ⟨ePct40, by simp, rfl⟩

/-- C5: for every non-empty rule set in which every rule is fixed, the
validator returns valid iff the sum of the rule values exactly equals the
total income amount. -/
theorem validator_all_fixed_valid_iff_exact_sum (envelopes : List Envelope)
    (totalAmount : ℚ) (hne : envelopes ≠ [])
    (hall : ∀ e ∈ envelopes, e.incomeAllocationType = some AllocKind.fixed) :
    (validateIncomeAllocation envelopes totalAmount).isValid = true ↔
      (envelopes.map (fun e => e.incomeAllocation.getD 0)).sum = totalAmount := by
  have hf : hasFixed envelopes = true := by
    obtain ⟨e, he⟩ := List.exists_mem_of_ne_nil envelopes hne
    simp only [hasFixed, List.any_eq_true, decide_eq_true_eq]
    exact ⟨e, he, hall e he⟩
  have hp : hasPercentage envelopes = false := by
    simp only [hasPercentage, List.any_eq_false, decide_eq_true_eq]
    intro e he
    simp [hall e he]
  have hft : fixedTotal envelopes
      = (envelopes.map (fun e => e.incomeAllocation.getD 0)).sum := by
    simpa [fixedTotal] using foldl_cond_add AllocKind.fixed envelopes 0 hall
  by_cases hsum : (envelopes.map (fun e => e.incomeAllocation.getD 0)).sum = totalAmount
  · simp [validateIncomeAllocation, hf, hp, hft, hsum]
  · simp [validateIncomeAllocation, hf, hp, hft, hsum]

/-- C5 witness: fixed rules 60 and 40 are valid against total 100 and invalid
against total 90. -/
theorem validator_all_fixed_valid_iff_exact_sum_witness :
    (validateIncomeAllocation [eFixed60, eFixed40] 100).isValid = true ∧
      (validateIncomeAllocation [eFixed60, eFixed40] 90).isValid = false :=
  ⟨(validator_all_fixed_valid_iff_exact_sum [eFixed60, eFixed40] 100 (by simp)
      (by decide)).mpr (by norm_num [eFixed60, eFixed40, mkEnvW]),
    Bool.eq_false_iff.mpr (fun hc =>
      absurd ((validator_all_fixed_valid_iff_exact_sum [eFixed60, eFixed40] 90 (by simp)
        (by decide)).mp hc) (by norm_num [eFixed60, eFixed40, mkEnvW]))⟩

/-- C6: for every rule set in which every rule is a percentage, the validator
returns valid iff the sum of the percentage values lies in the closed
interval from 0 to 100; validation of an empty rule set always returns
valid. -/
theorem validator_all_percentage_valid_iff_range (envelopes : List Envelope)
    (totalAmount : ℚ)
    (hall : ∀ e ∈ envelopes, e.incomeAllocationType = some AllocKind.percentage) :
    ((validateIncomeAllocation envelopes totalAmount).isValid = true ↔
      (0 ≤ (envelopes.map (fun e => e.incomeAllocation.getD 0)).sum ∧
        (envelopes.map (fun e => e.incomeAllocation.getD 0)).sum ≤ 100)) ∧
      (validateIncomeAllocation [] totalAmount).isValid = true := by
  refine ⟨?_, by simp [validateIncomeAllocation, hasFixed, hasPercentage]⟩
  by_cases hne : envelopes = []
  · subst hne
    simp [validateIncomeAllocation, hasFixed, hasPercentage]
  · have hp : hasPercentage envelopes = true := by
      obtain ⟨e, he⟩ := List.exists_mem_of_ne_nil envelopes hne
      simp only [hasPercentage, List.any_eq_true, decide_eq_true_eq]
      exact ⟨e, he, hall e he⟩
    have hf : hasFixed envelopes = false := by
      simp only [hasFixed, List.any_eq_false, decide_eq_true_eq]
      intro e he
      simp [hall e he]
    have hpt : percentageTotal envelopes
        = (envelopes.map (fun e => e.incomeAllocation.getD 0)).sum := by
      simpa [percentageTotal] using foldl_cond_add AllocKind.percentage envelopes 0 hall
    by_cases hr : (envelopes.map (fun e => e.incomeAllocation.getD 0)).sum < 0 ∨
        100 < (envelopes.map (fun e => e.incomeAllocation.getD 0)).sum
    · have : ¬ (0 ≤ (envelopes.map (fun e => e.incomeAllocation.getD 0)).sum ∧
          (envelopes.map (fun e => e.incomeAllocation.getD 0)).sum ≤ 100) := by
        rcases hr with hr | hr
        · exact fun h => absurd h.1 (not_le.mpr hr)
        · exact fun h => absurd h.2 (not_le.mpr hr)
      simp [validateIncomeAllocation, hf, hp, hpt, hr, this]
    · have : 0 ≤ (envelopes.map (fun e => e.incomeAllocation.getD 0)).sum ∧
          (envelopes.map (fun e => e.incomeAllocation.getD 0)).sum ≤ 100 := by
        rw [not_or, not_lt, not_lt] at hr
        exact ⟨hr.1, hr.2⟩
      simp [validateIncomeAllocation, hf, hp, hpt, hr, this]

/-- C6 witness: percentage rules 70 and 40 together are invalid (sum 110),
and the empty rule set is valid. -/
theorem validator_all_percentage_valid_iff_range_witness :
    (validateIncomeAllocation [ePct70, ePct40] 100).isValid = false ∧
      (validateIncomeAllocation [] 100).isValid = true :=
  ⟨Bool.eq_false_iff.mpr (fun hc =>
      absurd ((validator_all_percentage_valid_iff_range [ePct70, ePct40] 100
        (by decide)).1.mp hc) (by norm_num [ePct70, ePct40, mkEnvW])),
    (validator_all_percentage_valid_iff_range [] 100 (by simp)).2⟩

/-! ## Claims about the Income Processor -/

/-- C1: for every income transaction (positive amount, envelopeId absent),
if the rule-bearing candidate envelopes are non-empty but their rules fail
validation, `processIncome` falls back to proportional distribution over all
candidate envelopes of the account (not only the rule-bearing ones) and
completes; if no candidate envelope carries a complete rule, proportional
distribution over all candidate envelopes is used directly. -/
theorem processIncome_fallback_proportional_all_candidates
    (idGen : String → String) (envelopes : List Envelope) (t : Transaction)
    (h1 : 0 < t.amount) (h2 : t.envelopeId = none) :
    (((candidateEnvelopes envelopes t).filter hasCompleteRule ≠ [] ∧
        (validateIncomeAllocation
          ((candidateEnvelopes envelopes t).filter hasCompleteRule) t.amount).isValid = false) →
      processIncome idGen envelopes t
        = proportionalTxs idGen t (candidateEnvelopes envelopes t)) ∧
    ((candidateEnvelopes envelopes t).filter hasCompleteRule = [] →
      processIncome idGen envelopes t
        = proportionalTxs idGen t (candidateEnvelopes envelopes t)) :=
  ⟨fun h => processIncome_invalid_rules idGen envelopes t h1 h2 h.1 h.2,
    fun h => processIncome_no_rules idGen envelopes t h1 h2 h⟩

/-- C1 witness: a fixed rule next to a percentage rule fails validation, and
the income of 100 is distributed proportionally over both candidate
envelopes. -/
theorem processIncome_fallback_proportional_all_candidates_witness :
    processIncome idGenW [eFixed60, ePct40] tIncome100
      = proportionalTxs idGenW tIncome100 (candidateEnvelopes [eFixed60, ePct40] tIncome100) :=
  (processIncome_fallback_proportional_all_candidates idGenW [eFixed60, ePct40]
      tIncome100 (by norm_num [tIncome100]) rfl).1
    ⟨by decide, by decide⟩

/-- C7: the processor classifies a transaction as unassigned income iff its
amount is strictly positive and its envelopeId is absent; a transaction with
amount at most 0 or with envelopeId set produces no allocation transactions,
regardless of the envelope configuration. -/
theorem processIncome_noop_unless_unassigned_income (idGen : String → String)
    (envelopes : List Envelope) (t : Transaction) :
    (isUnassignedIncome t = true ↔ (0 < t.amount ∧ t.envelopeId = none)) ∧
    ((t.amount ≤ 0 ∨ t.envelopeId ≠ none) → processIncome idGen envelopes t = []) := by
  constructor
  · simp [isUnassignedIncome]
  · intro h
    have hni : ¬ (isUnassignedIncome t = true) := by
      intro hiu
      rw [isUnassignedIncome, Bool.and_eq_true, decide_eq_true_eq, decide_eq_true_eq] at hiu
      rcases h with h | h
      · exact absurd hiu.1 (not_lt.mpr h)
      · exact h hiu.2
    unfold processIncome
    rw [if_neg hni]

/-- C7 witness: an expense of -50 and an already-assigned income of 100 both
produce no allocation transactions against envelopes with positive allocated
amounts. -/
theorem processIncome_noop_unless_unassigned_income_witness :
    processIncome idGenW [ePlain500, ePlain300] tExpense50 = [] ∧
      processIncome idGenW [ePlain500, ePlain300] tAssigned = [] :=
  ⟨(processIncome_noop_unless_unassigned_income idGenW [ePlain500, ePlain300]
      tExpense50).2 (Or.inl (by norm_num [tExpense50])),
    (processIncome_noop_unless_unassigned_income idGenW [ePlain500, ePlain300]
      tAssigned).2 (Or.inr (by simp [tAssigned]))⟩

/-- C8: for an income transaction whose account has zero candidate envelopes,
or whose candidate envelopes have allocated amounts summing to zero while no
valid custom rules apply, the distribution is empty — no allocation
transactions — yet the original income transaction is still appended to the
ledger, and processing terminates normally. -/
theorem no_distribution_basis_empty_allocation (idGen : String → String)
    (envelopes : List Envelope) (prevTransactions : List Transaction)
    (t : Transaction) (h1 : 0 < t.amount) (h2 : t.envelopeId = none)
    (hbasis : candidateEnvelopes envelopes t = [] ∨
      (totalAllocatedOf (candidateEnvelopes envelopes t) = 0 ∧
        ((candidateEnvelopes envelopes t).filter hasCompleteRule = [] ∨
          (validateIncomeAllocation
            ((candidateEnvelopes envelopes t).filter hasCompleteRule) t.amount).isValid = false))) :
    processIncome idGen envelopes t = [] ∧
      handleTransactionsAdded idGen envelopes prevTransactions [t]
        = prevTransactions ++ [t] := by
  have hmain : processIncome idGen envelopes t = [] := by
    rcases hbasis with hAE | ⟨hsum, hrules⟩
    · rw [processIncome_no_rules idGen envelopes t h1 h2 (by rw [hAE]; rfl)]
      simp [proportionalTxs, hAE]
    · have hprop : proportionalTxs idGen t (candidateEnvelopes envelopes t) = [] := by
        simp [proportionalTxs, hsum]
      rcases hrules with hr | hr
      · rw [processIncome_no_rules idGen envelopes t h1 h2 hr, hprop]
      · by_cases hEWA : (candidateEnvelopes envelopes t).filter hasCompleteRule = []
        · rw [processIncome_no_rules idGen envelopes t h1 h2 hEWA, hprop]
        · rw [processIncome_invalid_rules idGen envelopes t h1 h2 hEWA hr, hprop]
  refine ⟨hmain, ?_⟩
  simp [handleTransactionsAdded, hmain]

/-- C8 witness: an income of 100 against an account with no envelopes yields
no allocation transactions, and the ledger still records the income. -/
theorem no_distribution_basis_empty_allocation_witness :
    processIncome idGenW [] tIncome100 = [] ∧
      handleTransactionsAdded idGenW [] [] [tIncome100] = [] ++ [tIncome100] :=
  no_distribution_basis_empty_allocation idGenW [] [] tIncome100
    (by norm_num [tIncome100]) rfl (Or.inl rfl)

/-- C2: under custom-rule distribution (rule-bearing envelopes present and
their rules valid), every rule-bearing envelope with a percentage rule of
value v receives totalAmount times v over 100, every rule-bearing envelope
with a fixed rule of value v receives the minimum of v and totalAmount,
every produced allocation comes from a rule-bearing envelope (envelopes
without a complete rule receive nothing), and no produced allocation has an
amount of zero or less. -/
theorem customRule_distribution_amounts (idGen : String → String)
    (envelopes : List Envelope) (t : Transaction)
    (h1 : 0 < t.amount) (h2 : t.envelopeId = none)
    (h3 : (candidateEnvelopes envelopes t).filter hasCompleteRule ≠ [])
    (h4 : (validateIncomeAllocation
      ((candidateEnvelopes envelopes t).filter hasCompleteRule) t.amount).isValid = true) :
    (∀ e ∈ (candidateEnvelopes envelopes t).filter hasCompleteRule, ∀ v : ℚ,
      e.incomeAllocation = some v →
      ((e.incomeAllocationType = some AllocKind.percentage →
          0 < t.amount * (v / 100) →
          mkAllocationTx idGen t e (t.amount * (v / 100))
            ∈ processIncome idGen envelopes t) ∧
        (e.incomeAllocationType = some AllocKind.fixed →
          0 < min v t.amount →
          mkAllocationTx idGen t e (min v t.amount)
            ∈ processIncome idGen envelopes t))) ∧
    (∀ tx ∈ processIncome idGen envelopes t,
      0 < tx.amount ∧
        ∃ e ∈ (candidateEnvelopes envelopes t).filter hasCompleteRule,
          tx = mkAllocationTx idGen t e (customRuleAmount t.amount e)) := by
  have heq := processIncome_valid_rules idGen envelopes t h1 h2 h3 h4
  rw [heq]
  constructor
  · intro e he v hv
    constructor
    · intro hk hpos
      have hc : customRuleAmount t.amount e = t.amount * (v / 100) := by
        simp [customRuleAmount, hk, hv]
      simp only [customTxs, List.mem_filterMap]
      exact ⟨e, he, by simp [hc, hpos]⟩
    · intro hk hpos
      have hc : customRuleAmount t.amount e = min v t.amount := by
        simp [customRuleAmount, hk, hv]
      simp only [customTxs, List.mem_filterMap]
      exact ⟨e, he, by simp [hc, hpos]⟩
  · intro tx htx
    simp only [customTxs, List.mem_filterMap] at htx
    obtain ⟨e, he, hfe⟩ := htx
    split_ifs at hfe with hpos
    · injection hfe with hfe
      subst hfe
      exact ⟨hpos, e, he, rfl⟩

/-- C2 witness: percentage rules 50 and 30 against an income of 100, next to
a rule-free envelope, produce allocations of 50 and 30 for the rule-bearing
envelopes only. -/
theorem customRule_distribution_amounts_witness :
    (mkAllocationTx idGenW tIncome100 ePct50 (tIncome100.amount * (50 / 100))
        ∈ processIncome idGenW [ePct50, ePct30, ePlain500] tIncome100) ∧
      (∀ tx ∈ processIncome idGenW [ePct50, ePct30, ePlain500] tIncome100,
        0 < tx.amount ∧
          ∃ e ∈ (candidateEnvelopes [ePct50, ePct30, ePlain500] tIncome100).filter
              hasCompleteRule,
            tx = mkAllocationTx idGenW tIncome100 e
              (customRuleAmount tIncome100.amount e)) := by
  have h := customRule_distribution_amounts idGenW [ePct50, ePct30, ePlain500]
    tIncome100 (by norm_num [tIncome100]) rfl (by decide)
    (by
      have hEWA : (candidateEnvelopes [ePct50, ePct30, ePlain500] tIncome100).filter
          hasCompleteRule = [ePct50, ePct30] := by decide
      rw [hEWA]
      have hf : hasFixed [ePct50, ePct30] = false := by decide
      have hp : hasPercentage [ePct50, ePct30] = true := by decide
      have hpt : percentageTotal [ePct50, ePct30] = 80 := by
        norm_num [percentageTotal, ePct50, ePct30, mkEnvW]
      norm_num [validateIncomeAllocation, hf, hp, hpt])
  refine ⟨?_, h.2⟩
  have := (h.1 ePct50 (by decide) 50 rfl).1 rfl (by norm_num [tIncome100])
  simpa using this

/-- C3: for an income transaction against rule-free candidate envelopes with
non-negative allocated amounts of positive sum, proportional distribution
gives each envelope `t.amount * (allocated / sumOfAllocated)` and the
amounts of the produced allocation transactions sum exactly to `t.amount`. -/
theorem proportional_distribution_sums_to_amount (idGen : String → String)
    (envelopes : List Envelope) (t : Transaction)
    (h1 : 0 < t.amount) (h2 : t.envelopeId = none)
    (hnorule : ∀ e ∈ candidateEnvelopes envelopes t, hasCompleteRule e = false)
    (hnonneg : ∀ e ∈ candidateEnvelopes envelopes t, 0 ≤ e.allocated)
    (hpos : 0 < totalAllocatedOf (candidateEnvelopes envelopes t)) :
    (∀ e ∈ candidateEnvelopes envelopes t,
      0 < t.amount * (e.allocated / totalAllocatedOf (candidateEnvelopes envelopes t)) →
      mkAllocationTx idGen t e
          (t.amount * (e.allocated / totalAllocatedOf (candidateEnvelopes envelopes t)))
        ∈ processIncome idGen envelopes t) ∧
    ((processIncome idGen envelopes t).map Transaction.amount).sum = t.amount := by
  have hfil : (candidateEnvelopes envelopes t).filter hasCompleteRule = [] := by
    rw [List.filter_eq_nil_iff]
    intro e he
    simp [hnorule e he]
  have heq := processIncome_no_rules idGen envelopes t h1 h2 hfil
  have hlen : 0 < (candidateEnvelopes envelopes t).length := by
    rcases hAE : candidateEnvelopes envelopes t with _ | ⟨e, l⟩
    · rw [hAE] at hpos
      simp [totalAllocatedOf] at hpos
    · simp
  have hprop : processIncome idGen envelopes t
      = (candidateEnvelopes envelopes t).filterMap (fun env =>
          if 0 < t.amount * (env.allocated / totalAllocatedOf (candidateEnvelopes envelopes t)) then
            some (mkAllocationTx idGen t env
              (t.amount * (env.allocated / totalAllocatedOf (candidateEnvelopes envelopes t))))
          else none) := by
    rw [heq]
    simp only [proportionalTxs]
    rw [if_pos ⟨hlen, hpos⟩]
  constructor
  · intro e he hposamt
    rw [hprop]
    exact List.mem_filterMap.mpr ⟨e, he, by simp [hposamt]⟩
  · rw [hprop]
    rw [sum_amounts_filterMap_pos idGen t _ _ (fun e he =>
      mul_nonneg (le_of_lt h1) (div_nonneg (hnonneg e he) (le_of_lt hpos)))]
    rw [sum_map_proportional, ← totalAllocatedOf_eq_sum,
      div_self (ne_of_gt hpos), mul_one]

/-- C3 witness: income 1500 against rule-free envelopes with allocated 500
and 300 sums back to 1500, the allocations being exactly 937.50 and 562.50. -/
theorem proportional_distribution_sums_to_amount_witness :
    ((processIncome idGenW [ePlain500, ePlain300] tIncome1500).map
        Transaction.amount).sum = tIncome1500.amount ∧
      (processIncome idGenW [ePlain500, ePlain300] tIncome1500).map
          Transaction.amount = [1875 / 2, 1125 / 2] := by
  have hAE : candidateEnvelopes [ePlain500, ePlain300] tIncome1500
      = [ePlain500, ePlain300] := by decide
  have hS : totalAllocatedOf [ePlain500, ePlain300] = 800 := by
    norm_num [totalAllocatedOf, ePlain500, ePlain300, mkEnvW]
  refine ⟨(proportional_distribution_sums_to_amount idGenW [ePlain500, ePlain300]
    tIncome1500 (by norm_num [tIncome1500]) rfl (by decide) (by decide)
    (by rw [hAE, hS]; norm_num)).2, ?_⟩
  have heq := processIncome_no_rules idGenW [ePlain500, ePlain300] tIncome1500
    (by norm_num [tIncome1500]) rfl (by decide)
  rw [heq, hAE]
  simp only [proportionalTxs, hS]
  rw [if_pos (by norm_num)]
  norm_num [List.filterMap_cons, mkAllocationTx, ePlain500, ePlain300, mkEnvW,
    tIncome1500]

/-- C10: an envelope whose rule value is 0, or whose rule fields are only
partially present, is treated by `processIncome` exactly as an envelope with
no rule: it fails the rule-completeness test, it is excluded from every
rule-bearing set (hence its rule is never passed to the validator and it
receives nothing under custom-rule distribution, which draws only from that
set), and when all envelopes of an account are of this form the income is
distributed proportionally over all of them. -/
theorem zero_or_partial_rule_treated_as_no_rule (env : Envelope)
    (h : env.incomeAllocation = some 0 ∨ env.incomeAllocation = none ∨
      env.incomeAllocationType = none) :
    hasCompleteRule env = false ∧
    (∀ l : List Envelope, env ∉ l.filter hasCompleteRule) ∧
    (∀ (idGen : String → String) (t : Transaction) (envelopes : List Envelope),
      0 < t.amount → t.envelopeId = none →
      (∀ e ∈ candidateEnvelopes envelopes t,
        e.incomeAllocation = some 0 ∨ e.incomeAllocation = none ∨
          e.incomeAllocationType = none) →
      processIncome idGen envelopes t
        = proportionalTxs idGen t (candidateEnvelopes envelopes t)) := by
  have h1 : hasCompleteRule env = false := hasCompleteRule_eq_false_of_degenerate h
  refine ⟨h1, ?_, ?_⟩
  · intro l hmem
    have := (List.mem_filter.mp hmem).2
    rw [h1] at this
    cases this
  · intro idGen t envelopes ht he hall
    refine processIncome_no_rules idGen envelopes t ht he ?_
    rw [List.filter_eq_nil_iff]
    intro e hemem
    simp [hasCompleteRule_eq_false_of_degenerate (hall e hemem)]

/-- C10 witness: an envelope with rule value 0 and an envelope with a value
but no kind are both rule-free for `processIncome`, and an income of 100
against only such envelopes is distributed proportionally over both. -/
theorem zero_or_partial_rule_treated_as_no_rule_witness :
    hasCompleteRule eZeroRule = false ∧
      eZeroRule ∉ [eZeroRule, eNoKind].filter hasCompleteRule ∧
      processIncome idGenW [eZeroRule, eNoKind] tIncome100
        = proportionalTxs idGenW tIncome100
            (candidateEnvelopes [eZeroRule, eNoKind] tIncome100) := by
  have h := zero_or_partial_rule_treated_as_no_rule eZeroRule (Or.inl rfl)
  exact ⟨h.1, h.2.1 [eZeroRule, eNoKind],
    h.2.2 idGenW tIncome100 [eZeroRule, eNoKind]
      (by norm_num [tIncome100]) rfl (by decide)⟩

/-! ## Claim about identifier generation (GetPaid) -/

/-- C9 evaluation at the failing input: two `handleSubmit` invocations of
`GetPaid.tsx` within the same instant (both observe `Date.now() = 7`) emit
the identifier list twice, and the combined identifiers are not pairwise
distinct — the main paycheck identifier `paycheck-7` carries no random
component and collides across the two submissions. -/
theorem getPaid_same_instant_ids_collide :
    ¬ (getPaidSubmitIds [("e7", 50)] 7 ++ getPaidSubmitIds [("e7", 50)] 7).Nodup := by
  decide

end Budget
